import Mathlib

/-!
# Verification of the evolution engine core (`src/evolution/core.py`)

A shallow embedding of the `EvolutionEngine` class and the proofs of the
behavioural claims about it.

Modelling conventions:
* Python `float` fitness values are embedded as exact rationals (`ℚ`); the
  engine only ever compares fitness values and multiplies the population
  length by the elite ratio, so no rounding behaviour is observable in the
  claims under study.
* Python objects are heap references: `Individual` records live in a `store`
  (the heap), and the population and the archive are lists of store indices
  (object identities).  `individual.fitness = ...` is an in-place update of
  the store, so an archived individual aliases the live one, exactly as in
  CPython.
* The two injected collaborators (`eval_fn`, `ollama_client.generate`) and
  the wall clock (`datetime.now()`) are external effects; they are modelled
  as oracles indexed by a call counter, which subsumes pure functions
  (ignore the counter) and stateful/flaky ones.  Ghost fields (`evalLog`,
  `mutCalls`, `clockTicks`) record how much of each oracle has been
  consumed; they are invisible to the algorithm itself.
* `uuid.uuid4()` identifiers are modelled as fresh store indices; the
  `created_at` timestamp and the free-form `metadata` dict are dropped, as
  no observable behaviour of the engine reads them.
* Exceptions that escape `run()` (`IndexError` from `elite[0]` on an empty
  list, `ValueError` from `max()` on an empty population) are modelled with
  `Except`.
-/

namespace Evolution

/-- The `EvolutionState` enum of `core.py`. -/
inductive EvolutionState
  | idle | generating | evaluating | selecting | mutating | completed | failed
  deriving DecidableEq

/-- One candidate solution (`Individual` dataclass).  `parentId` is a store
index; `none` marks seed individuals.  Default field values mirror the
dataclass defaults (`fitness = 0.0`, `generation = 0`, `parent_id = None`). -/
structure Individual where
  code : String
  fitness : ℚ
  generation : Nat
  parentId : Option Nat
  deriving DecidableEq, Inhabited

/-- The `EvolutionConfig` dataclass (the compute-device label is dropped: it does
not influence the algorithm). -/
structure EvolutionConfig where
  populationSize : Nat := 10
  eliteRatio : ℚ := mkRat 1 5
  mutationRate : ℚ := mkRat 1 10
  crossoverRate : ℚ := mkRat 1 2
  maxGenerations : Nat := 50
  timeoutSeconds : Nat := 300
  deriving DecidableEq

/-- The engine state.  `store` is the heap of `Individual` objects;
`population` and `archive` hold store indices (references).  `evalLog`,
`mutCalls` and `clockTicks` are ghost oracle-consumption counters. -/
structure EvolutionEngine where
  config : EvolutionConfig
  store : List Individual
  population : List Nat
  archive : List Nat
  state : EvolutionState
  currentGeneration : Nat
  evalLog : List String
  mutCalls : Nat
  clockTicks : Nat
  deriving DecidableEq

/-- Constructor `EvolutionEngine.__init__`. -/
def mkEngine (config : EvolutionConfig) : EvolutionEngine :=
  { config := config, store := [], population := [], archive := [],
    state := EvolutionState.idle, currentGeneration := 0,
    evalLog := [], mutCalls := 0, clockTicks := 0 }

/-- Result of one call of the injected evaluator: a score, or a raised
exception. -/
inductive EvalOutcome
  | ok (v : ℚ)
  | exn
  deriving DecidableEq

/-- Result of one call of the LLM mutation collaborator. -/
inductive MutOutcome
  | ok (s : String)
  | exn
  deriving DecidableEq

/-- The evaluator collaborator, as an oracle: call index → payload → outcome. -/
abbrev Evaluator := Nat → String → EvalOutcome

/-- The mutation collaborator, as an oracle: call index → prompt → outcome. -/
abbrev Mutator := Nat → String → MutOutcome

/-- The wall clock (`datetime.now().isoformat()`), as an oracle:
read index → timestamp string. -/
abbrev Clock := Nat → String

/-- Exceptions that can escape `run()`. -/
inductive RunErr
  | indexError
  | valueError
  deriving DecidableEq

instance {ε α : Type} [DecidableEq ε] [DecidableEq α] : DecidableEq (Except ε α)
  | Except.error x, Except.error y =>
    if h : x = y then isTrue (h ▸ rfl)
    else isFalse (fun hc => h (Except.error.inj hc))
  | Except.error _, Except.ok _ => isFalse (fun hc => Except.noConfusion hc)
  | Except.ok _, Except.error _ => isFalse (fun hc => Except.noConfusion hc)
  | Except.ok x, Except.ok y =>
    if h : x = y then isTrue (h ▸ rfl)
    else isFalse (fun hc => h (Except.ok.inj hc))

/-- Dereference a store index (heap read).  Out-of-range reads return the
default individual; they never occur in the executions the engine builds. -/
def getInd (e : EvolutionEngine) (i : Nat) : Individual := e.store.getD i default

/-- Fitness of the individual referenced by `i`, read through the heap. -/
def fit (e : EvolutionEngine) (i : Nat) : ℚ := (getInd e i).fitness

/-- Python `int(n * r)` for a nonnegative count `n` and float ratio `r`:
truncation toward zero of the exact product, computed on the numerator and
denominator so that it evaluates by kernel reduction.
`pyIntMul_eq_floor` below identifies it with `⌊n * r⌋` for `0 ≤ r`. -/
def pyIntMul (n : Nat) (r : ℚ) : ℤ := Int.tdiv ((n : ℤ) * r.num) (r.den : ℤ)

/-- Python `max(1, int(len(population) * elite_ratio))`. -/
def eliteCount (n : Nat) (r : ℚ) : Nat := max 1 (pyIntMul n r).toNat

/-- The comparison used by `sorted(..., key=lambda x: x.fitness, reverse=True)`:
`a` may come before `b` iff `a`'s fitness is not below `b`'s. -/
def fitGE (e : EvolutionEngine) (a b : Nat) : Prop := fit e b ≤ fit e a

instance (e : EvolutionEngine) : DecidableRel (fitGE e) := fun _ _ =>
  inferInstanceAs (Decidable (_ ≤ _))

/-- Python's `sorted` is a stable sort, and all stable sorts of a list under
the same comparison coincide, so stable insertion sort is a faithful model of
`sorted(self.population, key=lambda x: x.fitness, reverse=True)`. -/
def sortIds (e : EvolutionEngine) (l : List Nat) : List Nat :=
  List.insertionSort (fitGE e) l

/-- The elite subset: top `eliteCount` of the fitness-descending stable sort
of the current population (computed identically in `_mutate_with_llm` and
`_select`). -/
def selectedElite (e : EvolutionEngine) : List Nat :=
  (sortIds e e.population).take (eliteCount e.population.length e.config.eliteRatio)

/-- Python `Individual(code=code, generation=0)` with dataclass defaults. -/
def seedIndividual (code : String) : Individual :=
  { code := code, fitness := 0, generation := 0, parentId := none }

/-- Method `EvolutionEngine.initialize` (named `initPopulation` here since `initialize` is a Lean keyword): fresh individuals for the seed payloads
replace the live population; the generation counter is reset and the state
returns to idle; the archive is untouched. -/
def initPopulation (e : EvolutionEngine) (seeds : List String) : EvolutionEngine :=
  { e with
    store := e.store ++ seeds.map seedIndividual
    population := List.range' e.store.length seeds.length
    currentGeneration := 0
    state := EvolutionState.idle }

/-- Method `EvolutionEngine._create_mutation_prompt`. -/
def createMutationPrompt (code : String) : String :=
  "You are an expert programmer helping with evolutionary code optimization.\n\nCurrent code:\n```python\n"
    ++ code
    ++ "\n```\n\nGenerate an improved version considering:\n1. Correctness - fix any bugs\n2. Performance - optimize for speed/memory\n3. Readability - improve code structure\n4. Security - follow best practices\n\nReturn ONLY the Python code, no explanations. Use EVOLVE-BLOCK-START and EVOLVE-BLOCK-END markers."

/-- One iteration of the loop of `_mutate_with_llm` over the elite snapshot:
skip seed individuals; otherwise ask the collaborator and on success append a
fresh child of `i` to the population (on failure, only the call counter
advances). -/
def mutateVisit (mu : Mutator) (acc : EvolutionEngine) (i : Nat) : EvolutionEngine :=
  let ind := getInd acc i
  if ind.parentId = none then acc
  else
    match mu acc.mutCalls (createMutationPrompt ind.code) with
    | MutOutcome.ok code =>
        { acc with
          store := acc.store ++ [{ code := code, fitness := 0,
                                   generation := acc.currentGeneration + 1,
                                   parentId := some i }]
          population := acc.population ++ [acc.store.length]
          mutCalls := acc.mutCalls + 1 }
    | MutOutcome.exn => { acc with mutCalls := acc.mutCalls + 1 }

/-- Method `EvolutionEngine._mutate_with_llm`: the elite list is computed once, then
traversed while the population grows. -/
def mutateStep (mu : Mutator) (e0 : EvolutionEngine) : EvolutionEngine :=
  let e := { e0 with state := EvolutionState.mutating }
  (selectedElite e).foldl (mutateVisit mu) e

/-- One iteration of the loop of `_evaluate`: individuals whose fitness is
still `0.0` are submitted to the evaluator; a raised exception is absorbed
into fitness `0.0`.  The store is updated in place (aliased references see
the new value). -/
def evalVisit (f : Evaluator) (acc : EvolutionEngine) (i : Nat) : EvolutionEngine :=
  let ind := getInd acc i
  if ind.fitness = 0 then
    let v := match f acc.evalLog.length ind.code with
      | EvalOutcome.ok v => v
      | EvalOutcome.exn => 0
    { acc with
      store := acc.store.set i { ind with fitness := v }
      evalLog := acc.evalLog ++ [ind.code] }
  else acc

/-- Method `EvolutionEngine._evaluate`. -/
def evalStep (f : Evaluator) (e0 : EvolutionEngine) : EvolutionEngine :=
  let e := { e0 with state := EvolutionState.evaluating }
  e.population.foldl (evalVisit f) e

/-- Method `EvolutionEngine._apply_mutation`: prefix the payload with a marker
comment holding the current wall-clock timestamp. -/
def applyMutation (now code : String) : String :=
  "# Generated: " ++ now ++ "\n" ++ code

/-- One filler individual built in the while-loop of `_select`: a mutated
copy of the best elite. -/
def padIndividual (clock : Clock) (tick : Nat) (parent : Individual)
    (pid gen : Nat) : Individual :=
  { code := applyMutation (clock tick) parent.code, fitness := 0,
    generation := gen + 1, parentId := some pid }

/-- Number of filler individuals the while-loop of `_select` creates: the
gap between the configured population size and the retained elite. -/
def fillCount (e : EvolutionEngine) : Nat :=
  e.config.populationSize - ((selectedElite e).take e.config.populationSize).length

/-- The state produced by a successful `_select`: the elite is appended to
the archive (keeping only the last 100 entries on overflow), the next
population is the elite truncated to the population size followed by filler
copies of the best elite. -/
def selectResult (clock : Clock) (e : EvolutionEngine) : EvolutionEngine :=
  let elite := selectedElite e
  let arch0 := e.archive ++ elite
  let arch := if 100 < arch0.length then arch0.drop (arch0.length - 100) else arch0
  let need := fillCount e
  let pid := elite.headD 0
  let parent := getInd e pid
  { e with
    archive := arch
    population := elite.take e.config.populationSize ++ List.range' e.store.length need
    store := e.store ++ (List.range need).map
      (fun j => padIndividual clock (e.clockTicks + j) parent pid e.currentGeneration)
    clockTicks := e.clockTicks + need }

/-- Method `EvolutionEngine._select`: stable-sort by fitness descending, take the
elite, append it to the archive (keeping only the last 100 entries), truncate
the elite to the population size and pad with mutated copies of the best
elite.  `elite[0]` on an empty elite raises `IndexError`. -/
def selectStep (clock : Clock) (e0 : EvolutionEngine) : Except RunErr EvolutionEngine :=
  let e := { e0 with state := EvolutionState.selecting }
  if (selectedElite e).isEmpty ∧ 0 < fillCount e then Except.error RunErr.indexError
  else Except.ok (selectResult clock e)

/-- Best fitness in the population, as Python's `max` over a generator
(meaningful only for a non-empty population, which every caller guards). -/
def maxFit (e : EvolutionEngine) : ℚ :=
  match e.population.map (fit e) with
  | [] => 0
  | x :: xs => xs.foldl max x

/-- Python `self.archive[-1].fitness`, read through the heap — the value the
no-improvement check compares against. -/
def recentArchiveFitness (e : EvolutionEngine) : ℚ :=
  fit e (e.archive.getLastD 0)

/-- Method `EvolutionEngine._check_termination`. -/
def checkTermination (e : EvolutionEngine) : Bool :=
  if e.population.isEmpty then true
  else if 1 ≤ maxFit e then true
  else if 10 ≤ e.archive.length ∧ maxFit e ≤ recentArchiveFitness e then true
  else false

/-- The mutation sub-phase runs only when an LLM collaborator was supplied
(`if ollama_client:`). -/
def mutatePhase (m : Option Mutator) (e : EvolutionEngine) : EvolutionEngine :=
  match m with
  | some mu => mutateStep mu e
  | none => e

/-- One iteration of the generation loop of `run()` up to and including
`_select`: optional LLM mutation, evaluation, selection. -/
def genBody (f : Evaluator) (m : Option Mutator) (clock : Clock) (gen : Nat)
    (e : EvolutionEngine) : Except RunErr EvolutionEngine :=
  selectStep clock (evalStep f (mutatePhase m { e with currentGeneration := gen }))

/-- The generation loop of `run()`.  After `_select`, Python evaluates
`max(self.population, ...)` (a `ValueError` on an empty population) and then
`_check_termination` decides whether to `break`. -/
def runLoop (f : Evaluator) (m : Option Mutator) (clock : Clock) :
    Nat → Nat → EvolutionEngine → Except RunErr EvolutionEngine
  | 0, _, e => Except.ok e
  | fuel + 1, gen, e =>
    match genBody f m clock gen e with
    | Except.error err => Except.error err
    | Except.ok e' =>
      if e'.population.isEmpty then Except.error RunErr.valueError
      else if checkTermination e' then Except.ok e'
      else runLoop f m clock fuel (gen + 1) e'

/-- Python `max(population, key=lambda x: x.fitness)`: the first individual
holding the maximal fitness, `none` on an empty population (`ValueError`). -/
def bestId (e : EvolutionEngine) : Option Nat :=
  e.population.foldl (fun acc i =>
    match acc with
    | none => some i
    | some j => if fit e j < fit e i then some i else acc) none

/-- Method `EvolutionEngine.run`: loop for `max_generations` iterations, then return
the best individual of the final population and mark the engine completed. -/
def run (f : Evaluator) (m : Option Mutator) (clock : Clock) (e : EvolutionEngine) :
    Except RunErr (Individual × EvolutionEngine) :=
  match runLoop f m clock e.config.maxGenerations 0 e with
  | Except.error err => Except.error err
  | Except.ok e' =>
    match bestId e' with
    | none => Except.error RunErr.valueError
    | some i => Except.ok (getInd e' i, { e' with state := EvolutionState.completed })

/-- Payloads of the live population in order (used to compare runs). -/
def popCodes (e : EvolutionEngine) : List String :=
  e.population.map (fun i => (getInd e i).code)


/-! ### Infrastructure: list, heap and fold lemmas -/

theorem getD_append_lt {α} [Inhabited α] (a b : List α) (i : Nat) (h : i < a.length) :
    (a ++ b).getD i default = a.getD i default := by
  simp [List.getD, List.getElem?_append_left h]

theorem getD_append_ge {α} [Inhabited α] (a b : List α) (i : Nat) (h : a.length ≤ i) :
    (a ++ b).getD i default = b.getD (i - a.length) default := by
  simp [List.getD, List.getElem?_append_right h]

theorem getD_set_ne {α} [Inhabited α] (l : List α) (i j : Nat) (x : α) (h : i ≠ j) :
    (l.set i x).getD j default = l.getD j default := by
  simp [List.getD, List.getElem?_set_ne h]

theorem getD_set_self {α} [Inhabited α] (l : List α) (i : Nat) (x : α) (h : i < l.length) :
    (l.set i x).getD i default = x := by
  simp [List.getD, List.getElem?_set_self, h]

theorem range'_map_getD {α} [Inhabited α] :
    ∀ (b a : List α), (List.range' a.length b.length).map
      (fun i => (a ++ b).getD i default) = b
  | [], _ => rfl
  | x :: b, a => by
    rw [List.length_cons, List.range'_succ, List.map_cons]
    refine congrArg₂ List.cons ?_ ?_
    · rw [getD_append_ge a (x :: b) a.length le_rfl, Nat.sub_self]; rfl
    · have h1 : a ++ x :: b = (a ++ [x]) ++ b := by simp
      have h2 : a.length + 1 = (a ++ [x]).length := by simp
      rw [h1, h2, range'_map_getD b (a ++ [x])]

theorem foldl_max_init_le (x : ℚ) : ∀ (xs : List ℚ), x ≤ xs.foldl max x
  | [] => le_rfl
  | y :: xs => le_trans (le_max_left x y) (foldl_max_init_le (max x y) xs)

theorem le_foldl_max (x : ℚ) : ∀ (xs : List ℚ) {y : ℚ}, y ∈ xs → y ≤ xs.foldl max x
  | [], _, h => absurd h (List.not_mem_nil _)
  | z :: xs, y, h => by
    rcases List.mem_cons.mp h with rfl | h
    · exact le_trans (le_max_right x y) (foldl_max_init_le (max x y) xs)
    · exact le_foldl_max (max x z) xs h

theorem foldl_max_cases (x : ℚ) : ∀ (xs : List ℚ), xs.foldl max x = x ∨ xs.foldl max x ∈ xs
  | [] => Or.inl rfl
  | y :: xs => by
    rcases foldl_max_cases (max x y) xs with h | h
    · rcases max_choice x y with h' | h'
      · exact Or.inl (by rw [List.foldl_cons, h, h'])
      · exact Or.inr (by rw [List.foldl_cons, h, h']; exact List.mem_cons_self y xs)
    · exact Or.inr (List.mem_cons_of_mem y h)

theorem le_maxFit (e : EvolutionEngine) {i : Nat} (h : i ∈ e.population) :
    fit e i ≤ maxFit e := by
  unfold maxFit
  rcases hp : e.population with _ | ⟨p, ps⟩
  · rw [hp] at h; exact absurd h (List.not_mem_nil _)
  · rw [hp] at h
    rw [List.map_cons]
    rcases List.mem_cons.mp h with rfl | h
    · exact foldl_max_init_le _ _
    · exact le_foldl_max _ _ (List.mem_map_of_mem (fit e) h)

theorem maxFit_nil (e : EvolutionEngine) (h : e.population = []) : maxFit e = 0 := by
  unfold maxFit; rw [h]; rfl

theorem maxFit_cons (e : EvolutionEngine) {p : Nat} {ps : List Nat}
    (hp : e.population = p :: ps) :
    maxFit e = (ps.map (fit e)).foldl max (fit e p) := by
  unfold maxFit
  rw [hp, List.map_cons]

theorem maxFit_le (e : EvolutionEngine) {b : ℚ} (h : ∀ i ∈ e.population, fit e i ≤ b)
    (h0 : e.population = [] → (0 : ℚ) ≤ b) : maxFit e ≤ b := by
  rcases hp : e.population with _ | ⟨p, ps⟩
  · rw [maxFit_nil e hp]; exact h0 hp
  · rw [maxFit_cons e hp]
    rcases foldl_max_cases (fit e p) (ps.map (fit e)) with hc | hc
    · rw [hc]; exact h p (hp ▸ List.mem_cons_self p ps)
    · rcases List.mem_map.mp hc with ⟨i, hi, hfi⟩
      rw [← hfi]; exact h i (hp ▸ List.mem_cons_of_mem p hi)

/-! ### Infrastructure: the fitness-descending stable sort -/

instance (e : EvolutionEngine) : IsTotal Nat (fitGE e) :=
  ⟨fun a b => le_total (fit e b) (fit e a)⟩

instance (e : EvolutionEngine) : IsTrans Nat (fitGE e) :=
  ⟨fun _ _ _ hab hbc => le_trans hbc hab⟩

theorem sortIds_perm (e : EvolutionEngine) (l : List Nat) : List.Perm (sortIds e l) l :=
  List.perm_insertionSort _ l

theorem sortIds_sorted (e : EvolutionEngine) (l : List Nat) :
    (sortIds e l).Sorted (fitGE e) :=
  List.sorted_insertionSort _ l

theorem sortIds_length (e : EvolutionEngine) (l : List Nat) :
    (sortIds e l).length = l.length :=
  (sortIds_perm e l).length_eq

theorem sortIds_head_max (e : EvolutionEngine) {l : List Nat} {i : Nat} (hi : i ∈ l) :
    fit e i ≤ fit e ((sortIds e l).headD 0) := by
  have hmem : i ∈ sortIds e l := (sortIds_perm e l).mem_iff.mpr hi
  rcases hs : sortIds e l with _ | ⟨h, t⟩
  · rw [hs] at hmem; exact absurd hmem (List.not_mem_nil _)
  · have hsorted := sortIds_sorted e l
    rw [hs] at hsorted hmem
    rcases List.mem_cons.mp hmem with rfl | hmem
    · exact le_rfl
    · exact (List.sorted_cons.mp hsorted).1 i hmem

theorem one_le_eliteCount (n : Nat) (r : ℚ) : 1 ≤ eliteCount n r :=
  le_max_left 1 _

theorem headD_take {α : Type _} (d : α) (l : List α) (k : Nat) (hk : 1 ≤ k) :
    (l.take k).headD d = l.headD d := by
  cases l with
  | nil => simp
  | cons a t =>
    cases k with
    | zero => omega
    | succ k => simp [List.take_succ_cons]

theorem selectedElite_subset (e : EvolutionEngine) {i : Nat}
    (h : i ∈ selectedElite e) : i ∈ e.population :=
  (sortIds_perm e e.population).mem_iff.mp (List.mem_of_mem_take h)

theorem selectedElite_eq_nil_iff (e : EvolutionEngine) :
    selectedElite e = [] ↔ e.population = [] := by
  unfold selectedElite
  constructor
  · intro h
    have hlen := congrArg List.length h
    rw [List.length_take, List.length_nil, sortIds_length] at hlen
    rcases Nat.min_eq_zero_iff.mp hlen with h1 | h1
    · have := one_le_eliteCount e.population.length e.config.eliteRatio
      omega
    · exact List.length_eq_zero.mp h1
  · intro h
    rw [h]
    simp [sortIds, List.insertionSort]

theorem selectedElite_headD (e : EvolutionEngine) :
    (selectedElite e).headD 0 = (sortIds e e.population).headD 0 :=
  headD_take 0 _ _ (one_le_eliteCount _ _)


/-! ### Infrastructure: what each phase leaves untouched -/

theorem evalVisit_population (f : Evaluator) (acc : EvolutionEngine) (i : Nat) :
    (evalVisit f acc i).population = acc.population := by
  simp only [evalVisit]; split <;> rfl

theorem evalVisit_archive (f : Evaluator) (acc : EvolutionEngine) (i : Nat) :
    (evalVisit f acc i).archive = acc.archive := by
  simp only [evalVisit]; split <;> rfl

theorem evalVisit_config (f : Evaluator) (acc : EvolutionEngine) (i : Nat) :
    (evalVisit f acc i).config = acc.config := by
  simp only [evalVisit]; split <;> rfl

theorem evalVisit_currentGeneration (f : Evaluator) (acc : EvolutionEngine) (i : Nat) :
    (evalVisit f acc i).currentGeneration = acc.currentGeneration := by
  simp only [evalVisit]; split <;> rfl

theorem evalVisit_state (f : Evaluator) (acc : EvolutionEngine) (i : Nat) :
    (evalVisit f acc i).state = acc.state := by
  simp only [evalVisit]; split <;> rfl

theorem evalVisit_clockTicks (f : Evaluator) (acc : EvolutionEngine) (i : Nat) :
    (evalVisit f acc i).clockTicks = acc.clockTicks := by
  simp only [evalVisit]; split <;> rfl

theorem evalVisit_store_length (f : Evaluator) (acc : EvolutionEngine) (i : Nat) :
    (evalVisit f acc i).store.length = acc.store.length := by
  simp only [evalVisit]; split
  · simp
  · rfl

theorem foldl_evalVisit_population (f : Evaluator) :
    ∀ (l : List Nat) (acc : EvolutionEngine),
      (l.foldl (evalVisit f) acc).population = acc.population
  | [], _ => rfl
  | i :: l, acc => by
    rw [List.foldl_cons, foldl_evalVisit_population f l, evalVisit_population]

theorem foldl_evalVisit_archive (f : Evaluator) :
    ∀ (l : List Nat) (acc : EvolutionEngine),
      (l.foldl (evalVisit f) acc).archive = acc.archive
  | [], _ => rfl
  | i :: l, acc => by
    rw [List.foldl_cons, foldl_evalVisit_archive f l, evalVisit_archive]

theorem foldl_evalVisit_config (f : Evaluator) :
    ∀ (l : List Nat) (acc : EvolutionEngine),
      (l.foldl (evalVisit f) acc).config = acc.config
  | [], _ => rfl
  | i :: l, acc => by
    rw [List.foldl_cons, foldl_evalVisit_config f l, evalVisit_config]

theorem foldl_evalVisit_currentGeneration (f : Evaluator) :
    ∀ (l : List Nat) (acc : EvolutionEngine),
      (l.foldl (evalVisit f) acc).currentGeneration = acc.currentGeneration
  | [], _ => rfl
  | i :: l, acc => by
    rw [List.foldl_cons, foldl_evalVisit_currentGeneration f l,
      evalVisit_currentGeneration]

theorem evalStep_population (f : Evaluator) (e : EvolutionEngine) :
    (evalStep f e).population = e.population :=
  foldl_evalVisit_population f _ _

theorem evalStep_archive (f : Evaluator) (e : EvolutionEngine) :
    (evalStep f e).archive = e.archive :=
  foldl_evalVisit_archive f _ _

theorem evalStep_config (f : Evaluator) (e : EvolutionEngine) :
    (evalStep f e).config = e.config :=
  foldl_evalVisit_config f _ _

theorem evalStep_currentGeneration (f : Evaluator) (e : EvolutionEngine) :
    (evalStep f e).currentGeneration = e.currentGeneration :=
  foldl_evalVisit_currentGeneration f _ _

theorem mutateVisit_archive (mu : Mutator) (acc : EvolutionEngine) (i : Nat) :
    (mutateVisit mu acc i).archive = acc.archive := by
  simp only [mutateVisit]; split
  · rfl
  · split <;> rfl

theorem mutateVisit_config (mu : Mutator) (acc : EvolutionEngine) (i : Nat) :
    (mutateVisit mu acc i).config = acc.config := by
  simp only [mutateVisit]; split
  · rfl
  · split <;> rfl

theorem mutateVisit_currentGeneration (mu : Mutator) (acc : EvolutionEngine) (i : Nat) :
    (mutateVisit mu acc i).currentGeneration = acc.currentGeneration := by
  simp only [mutateVisit]; split
  · rfl
  · split <;> rfl

theorem mutateVisit_population_extends (mu : Mutator) (acc : EvolutionEngine) (i : Nat) :
    ∃ t, (mutateVisit mu acc i).population = acc.population ++ t := by
  simp only [mutateVisit]; split
  · exact ⟨[], by simp⟩
  · split
    · exact ⟨[acc.store.length], rfl⟩
    · exact ⟨[], by simp⟩

theorem mutateVisit_store_extends (mu : Mutator) (acc : EvolutionEngine) (i : Nat) :
    ∃ t, (mutateVisit mu acc i).store = acc.store ++ t := by
  simp only [mutateVisit]; split
  · exact ⟨[], by simp⟩
  · split
    · exact ⟨_, rfl⟩
    · exact ⟨[], by simp⟩

theorem foldl_mutateVisit_archive (mu : Mutator) :
    ∀ (l : List Nat) (acc : EvolutionEngine),
      (l.foldl (mutateVisit mu) acc).archive = acc.archive
  | [], _ => rfl
  | i :: l, acc => by
    rw [List.foldl_cons, foldl_mutateVisit_archive mu l, mutateVisit_archive]

theorem foldl_mutateVisit_config (mu : Mutator) :
    ∀ (l : List Nat) (acc : EvolutionEngine),
      (l.foldl (mutateVisit mu) acc).config = acc.config
  | [], _ => rfl
  | i :: l, acc => by
    rw [List.foldl_cons, foldl_mutateVisit_config mu l, mutateVisit_config]

theorem foldl_mutateVisit_currentGeneration (mu : Mutator) :
    ∀ (l : List Nat) (acc : EvolutionEngine),
      (l.foldl (mutateVisit mu) acc).currentGeneration = acc.currentGeneration
  | [], _ => rfl
  | i :: l, acc => by
    rw [List.foldl_cons, foldl_mutateVisit_currentGeneration mu l,
      mutateVisit_currentGeneration]

theorem foldl_mutateVisit_population_extends (mu : Mutator) :
    ∀ (l : List Nat) (acc : EvolutionEngine),
      ∃ t, (l.foldl (mutateVisit mu) acc).population = acc.population ++ t
  | [], acc => ⟨[], by simp⟩
  | i :: l, acc => by
    rw [List.foldl_cons]
    rcases foldl_mutateVisit_population_extends mu l (mutateVisit mu acc i) with ⟨t, ht⟩
    rcases mutateVisit_population_extends mu acc i with ⟨s, hs⟩
    exact ⟨s ++ t, by rw [ht, hs, List.append_assoc]⟩

theorem mutateStep_archive (mu : Mutator) (e : EvolutionEngine) :
    (mutateStep mu e).archive = e.archive :=
  foldl_mutateVisit_archive mu _ _

theorem mutateStep_config (mu : Mutator) (e : EvolutionEngine) :
    (mutateStep mu e).config = e.config :=
  foldl_mutateVisit_config mu _ _

theorem mutateStep_currentGeneration (mu : Mutator) (e : EvolutionEngine) :
    (mutateStep mu e).currentGeneration = e.currentGeneration :=
  foldl_mutateVisit_currentGeneration mu _ _

theorem mutateStep_population_extends (mu : Mutator) (e : EvolutionEngine) :
    ∃ t, (mutateStep mu e).population = e.population ++ t :=
  foldl_mutateVisit_population_extends mu _ _

/-! ### Infrastructure: the all-fitness-zero invariant (failing evaluator) -/

/-- Every individual on the heap has the sentinel fitness `0.0`. -/
def allZero (e : EvolutionEngine) : Prop := ∀ ind ∈ e.store, ind.fitness = 0

theorem getD_mem_or_default {α : Type _} [Inhabited α] (l : List α) (i : Nat) :
    l.getD i default ∈ l ∨ l.getD i default = default := by
  by_cases h : i < l.length
  · left
    rw [List.getD_eq_getElem l default h]
    exact List.getElem_mem h
  · right
    exact List.getD_eq_default l default (Nat.le_of_not_lt h)

theorem fit_of_allZero {e : EvolutionEngine} (h : allZero e) (i : Nat) : fit e i = 0 := by
  unfold fit getInd
  rcases getD_mem_or_default e.store i with hm | hd
  · exact h _ hm
  · rw [hd]; rfl

theorem maxFit_of_allZero {e : EvolutionEngine} (h : allZero e) : maxFit e = 0 := by
  rcases hp : e.population with _ | ⟨p, ps⟩
  · exact maxFit_nil e hp
  · rw [maxFit_cons e hp]
    have : ∀ xs : List Nat, (xs.map (fit e)).foldl max (0 : ℚ) = 0 := by
      intro xs
      induction xs with
      | nil => rfl
      | cons x xs ih => rw [List.map_cons, List.foldl_cons, fit_of_allZero h, max_self]; exact ih
    rw [fit_of_allZero h]; exact this ps

theorem allZero_evalVisit {f : Evaluator} (hf : ∀ n s, f n s = EvalOutcome.exn)
    {acc : EvolutionEngine} (h : allZero acc) (i : Nat) : allZero (evalVisit f acc i) := by
  simp only [evalVisit]
  split
  · intro ind hm
    rcases List.mem_or_eq_of_mem_set hm with hm' | rfl
    · exact h _ hm'
    · rw [hf]
  · exact h

theorem allZero_foldl_evalVisit {f : Evaluator} (hf : ∀ n s, f n s = EvalOutcome.exn) :
    ∀ (l : List Nat) {acc : EvolutionEngine}, allZero acc → allZero (l.foldl (evalVisit f) acc)
  | [], _, h => h
  | i :: l, acc, h => by
    rw [List.foldl_cons]
    exact allZero_foldl_evalVisit hf l (allZero_evalVisit hf h i)

theorem allZero_evalStep {f : Evaluator} (hf : ∀ n s, f n s = EvalOutcome.exn)
    {e : EvolutionEngine} (h : allZero e) : allZero (evalStep f e) :=
  allZero_foldl_evalVisit hf _ h

theorem allZero_mutateVisit (mu : Mutator) {acc : EvolutionEngine} (h : allZero acc)
    (i : Nat) : allZero (mutateVisit mu acc i) := by
  simp only [mutateVisit]
  split
  · exact h
  · split
    · intro ind hm
      rcases List.mem_append.mp hm with hm' | hm'
      · exact h _ hm'
      · rcases List.mem_singleton.mp hm' with rfl
        rfl
    · exact h

theorem allZero_foldl_mutateVisit (mu : Mutator) :
    ∀ (l : List Nat) {acc : EvolutionEngine}, allZero acc → allZero (l.foldl (mutateVisit mu) acc)
  | [], _, h => h
  | i :: l, acc, h => by
    rw [List.foldl_cons]
    exact allZero_foldl_mutateVisit mu l (allZero_mutateVisit mu h i)

theorem allZero_mutateStep (mu : Mutator) {e : EvolutionEngine} (h : allZero e) :
    allZero (mutateStep mu e) :=
  allZero_foldl_mutateVisit mu _ h

theorem allZero_selectResult (clock : Clock) {e : EvolutionEngine} (h : allZero e) :
    allZero (selectResult clock e) := by
  unfold selectResult
  intro ind hm
  rcases List.mem_append.mp hm with hm' | hm'
  · exact h _ hm'
  · rcases List.mem_map.mp hm' with ⟨j, _, rfl⟩
    rfl

/-! ### Infrastructure: `bestId` (Python `max(..., key=fitness)`) -/

theorem bestFold_spec (e : EvolutionEngine) :
    ∀ (l : List Nat) (j : Nat),
      ∃ k, (l.foldl (fun acc i =>
          match acc with
          | none => some i
          | some j => if fit e j < fit e i then some i else acc) (some j)) = some k
        ∧ (k = j ∨ k ∈ l) ∧ fit e j ≤ fit e k ∧ ∀ i ∈ l, fit e i ≤ fit e k
  | [], j => ⟨j, rfl, Or.inl rfl, le_rfl, by simp⟩
  | i :: l, j => by
    rw [List.foldl_cons]
    dsimp only
    by_cases hij : fit e j < fit e i
    · rw [if_pos hij]
      rcases bestFold_spec e l i with ⟨k, hk, hmem, hle, hall⟩
      refine ⟨k, hk, ?_, le_trans (le_of_lt hij) hle, ?_⟩
      · rcases hmem with rfl | hm
        · exact Or.inr (List.mem_cons_self _ _)
        · exact Or.inr (List.mem_cons_of_mem _ hm)
      · intro x hx
        rcases List.mem_cons.mp hx with rfl | hx
        · exact hle
        · exact hall x hx
    · rw [if_neg hij]
      rcases bestFold_spec e l j with ⟨k, hk, hmem, hle, hall⟩
      refine ⟨k, hk, ?_, hle, ?_⟩
      · rcases hmem with rfl | hm
        · exact Or.inl rfl
        · exact Or.inr (List.mem_cons_of_mem _ hm)
      · intro x hx
        rcases List.mem_cons.mp hx with rfl | hx
        · exact le_trans (le_of_not_lt hij) hle
        · exact hall x hx

theorem bestId_spec (e : EvolutionEngine) {p : Nat} {ps : List Nat}
    (hp : e.population = p :: ps) :
    ∃ k, bestId e = some k ∧ k ∈ e.population ∧ ∀ i ∈ e.population, fit e i ≤ fit e k := by
  unfold bestId
  rw [hp, List.foldl_cons]
  rcases bestFold_spec e ps p with ⟨k, hk, hmem, hle, hall⟩
  refine ⟨k, hk, ?_, ?_⟩
  · rcases hmem with rfl | hm
    · exact List.mem_cons_self _ _
    · exact List.mem_cons_of_mem _ hm
  · intro i hi
    rcases List.mem_cons.mp hi with rfl | hi
    · exact hle
    · exact hall i hi


/-! ### Infrastructure: the selection phase -/

theorem pyIntMul_eq_floor (n : Nat) (r : ℚ) (h : 0 ≤ r) :
    pyIntMul n r = ⌊(n : ℚ) * r⌋ := by
  unfold pyIntMul
  have hnum : 0 ≤ r.num := Rat.num_nonneg.mpr h
  have hden : (0 : ℤ) < (r.den : ℤ) := Int.natCast_pos.mpr r.pos
  rw [Int.tdiv_eq_ediv (by positivity) (le_of_lt hden)]
  have : (n : ℚ) * r = ((n * r.num : ℤ) : ℚ) / ((r.den : ℕ) : ℚ) := by
    push_cast
    rw [mul_div_assoc, Rat.num_div_den]
  rw [this, Rat.floor_intCast_div_natCast]

theorem selectStep_ok (clock : Clock) (e0 : EvolutionEngine)
    (h : e0.population ≠ []) :
    selectStep clock e0 =
      Except.ok (selectResult clock { e0 with state := EvolutionState.selecting }) := by
  unfold selectStep
  rw [if_neg]
  intro ⟨h1, _⟩
  exact h ((selectedElite_eq_nil_iff _).mp (List.isEmpty_iff.mp h1))

theorem selectStep_error (clock : Clock) (e0 : EvolutionEngine)
    (h : e0.population = []) (hps : 0 < e0.config.populationSize) :
    selectStep clock e0 = Except.error RunErr.indexError := by
  unfold selectStep
  rw [if_pos]
  have he : selectedElite { e0 with state := EvolutionState.selecting } = [] :=
    (selectedElite_eq_nil_iff _).mpr h
  refine ⟨List.isEmpty_iff.mpr he, ?_⟩
  unfold fillCount
  rw [he]
  simpa using hps

theorem selectResult_population (clock : Clock) (e : EvolutionEngine) :
    (selectResult clock e).population =
      (selectedElite e).take e.config.populationSize ++
        List.range' e.store.length (fillCount e) := rfl

theorem selectResult_archive (clock : Clock) (e : EvolutionEngine) :
    (selectResult clock e).archive =
      (e.archive ++ selectedElite e).drop
        ((e.archive ++ selectedElite e).length - 100) := by
  show (if 100 < (e.archive ++ selectedElite e).length then _ else _) = _
  split
  · rfl
  · rw [Nat.sub_eq_zero_of_le (Nat.le_of_not_lt (by assumption)), List.drop_zero]

theorem selectResult_archive_length (clock : Clock) (e : EvolutionEngine) :
    (selectResult clock e).archive.length ≤ 100 := by
  rw [selectResult_archive, List.length_drop]
  omega

theorem selectResult_archive_length_overflow (clock : Clock) (e : EvolutionEngine)
    (h : 100 < (e.archive ++ selectedElite e).length) :
    (selectResult clock e).archive.length = 100 := by
  rw [selectResult_archive, List.length_drop]
  omega

theorem selectResult_config (clock : Clock) (e : EvolutionEngine) :
    (selectResult clock e).config = e.config := rfl

theorem selectResult_currentGeneration (clock : Clock) (e : EvolutionEngine) :
    (selectResult clock e).currentGeneration = e.currentGeneration := rfl

theorem selectResult_store (clock : Clock) (e : EvolutionEngine) :
    (selectResult clock e).store =
      e.store ++ (List.range (fillCount e)).map
        (fun j => padIndividual clock (e.clockTicks + j)
          (getInd e ((selectedElite e).headD 0)) ((selectedElite e).headD 0)
          e.currentGeneration) := rfl

theorem selectResult_population_length (clock : Clock) (e : EvolutionEngine) :
    (selectResult clock e).population.length = e.config.populationSize := by
  rw [selectResult_population, List.length_append, List.length_range', List.length_take]
  unfold fillCount
  rw [List.length_take]
  omega

theorem fit_selectResult_low (clock : Clock) (e : EvolutionEngine) {i : Nat}
    (h : i < e.store.length) : fit (selectResult clock e) i = fit e i := by
  unfold fit getInd
  rw [selectResult_store, getD_append_lt _ _ _ h]

theorem fit_selectResult_high (clock : Clock) (e : EvolutionEngine) {i : Nat}
    (h : e.store.length ≤ i) : fit (selectResult clock e) i = 0 := by
  unfold fit getInd
  rw [selectResult_store, getD_append_ge _ _ _ h]
  set pads := (List.range (fillCount e)).map
      (fun j => padIndividual clock (e.clockTicks + j)
        (getInd e ((selectedElite e).headD 0)) ((selectedElite e).headD 0)
        e.currentGeneration) with hpads
  rcases getD_mem_or_default pads (i - e.store.length) with hm | hd
  · rw [hpads] at hm
    rcases List.mem_map.mp hm with ⟨j, hj, heq⟩
    rw [hpads, ← heq]
    rfl
  · rw [hd]; rfl

theorem fit_valid {e : EvolutionEngine} {i : Nat} (h : fit e i ≠ 0) :
    i < e.store.length := by
  by_contra hc
  refine h ?_
  unfold fit getInd
  rw [List.getD_eq_default _ _ (Nat.le_of_not_lt hc)]
  rfl

theorem headD_mem_take {l : List Nat} (h : l ≠ []) {k : Nat} (hk : 1 ≤ k) :
    l.headD 0 ∈ l.take k := by
  rcases l with _ | ⟨a, t⟩
  · exact absurd rfl h
  · rcases k with _ | k
    · omega
    · rw [List.take_succ_cons]
      exact List.mem_cons_self _ _

theorem getD_map_range {α : Type _} [Inhabited α] (fn : Nat → α) (n j : Nat)
    (h : j < n) : ((List.range n).map fn).getD j default = fn j := by
  rw [List.getD_eq_getElem _ _ (by simpa using h)]
  simp

/-- The individual with the maximal fitness survives selection: if some member
of the population has fitness at least `b`, the population after `_select`
still has one (provided the configured population size is positive). -/
theorem selectResult_keeps_max (clock : Clock) (e : EvolutionEngine) {i : Nat} {b : ℚ}
    (hb : 0 < b) (hi : i ∈ e.population) (hfit : b ≤ fit e i)
    (hps : 0 < e.config.populationSize) :
    b ≤ maxFit (selectResult clock e) := by
  have hpop : e.population ≠ [] := List.ne_nil_of_mem hi
  set h0 := (sortIds e e.population).headD 0 with hh0
  have hmax : fit e i ≤ fit e h0 := sortIds_head_max e hi
  have hsort_ne : sortIds e e.population ≠ [] := by
    intro hc
    exact hpop (List.length_eq_zero.mp (by rw [← sortIds_length e e.population, hc]; rfl))
  have hmem_elite : h0 ∈ selectedElite e := by
    unfold selectedElite
    rw [hh0]
    exact headD_mem_take hsort_ne (one_le_eliteCount _ _)
  have hmem_take : h0 ∈ (selectedElite e).take e.config.populationSize := by
    have helite_ne : selectedElite e ≠ [] :=
      fun hc => hpop ((selectedElite_eq_nil_iff e).mp hc)
    have : (selectedElite e).headD 0 = h0 := by
      rw [selectedElite_headD, hh0]
    rw [← this]
    exact headD_mem_take helite_ne hps
  have hmem : h0 ∈ (selectResult clock e).population := by
    rw [selectResult_population]
    exact List.mem_append_left _ hmem_take
  have hvalid : h0 < e.store.length :=
    fit_valid (fun hc => absurd (hc ▸ le_trans hfit hmax) (not_le.mpr hb))
  calc b ≤ fit e h0 := le_trans hfit hmax
    _ = fit (selectResult clock e) h0 := (fit_selectResult_low clock e hvalid).symm
    _ ≤ maxFit (selectResult clock e) := le_maxFit _ hmem


/-! ### Infrastructure: effect of `_evaluate` on fitness values and call log -/

theorem foldl_evalVisit_store_length (f : Evaluator) :
    ∀ (l : List Nat) (acc : EvolutionEngine),
      (l.foldl (evalVisit f) acc).store.length = acc.store.length
  | [], _ => rfl
  | i :: l, acc => by
    rw [List.foldl_cons, foldl_evalVisit_store_length f l, evalVisit_store_length]

theorem evalVisit_fit_ne (f : Evaluator) (acc : EvolutionEngine) {i j : Nat}
    (hij : i ≠ j) : fit (evalVisit f acc j) i = fit acc i := by
  simp only [evalVisit]
  split
  · unfold fit getInd
    dsimp only
    rw [getD_set_ne _ _ _ _ (Ne.symm hij)]
  · rfl

theorem evalVisit_fit_self {f : Evaluator} {v : ℚ}
    (hf : ∀ n s, f n s = EvalOutcome.ok v) (acc : EvolutionEngine) {j : Nat}
    (hj : j < acc.store.length) :
    fit (evalVisit f acc j) j = if fit acc j = 0 then v else fit acc j := by
  unfold fit
  simp only [evalVisit]
  split
  case isTrue h0 =>
    unfold getInd
    dsimp only
    rw [getD_set_self _ _ _ hj, hf]
  case isFalse h0 =>
    rfl

theorem evalVisit_code (f : Evaluator) (acc : EvolutionEngine) (j i : Nat) :
    (getInd (evalVisit f acc j) i).code = (getInd acc i).code := by
  simp only [evalVisit]
  split
  · unfold getInd
    dsimp only
    by_cases hij : j = i
    · subst hij
      by_cases hlt : j < acc.store.length
      · rw [getD_set_self _ _ _ hlt]
      · rw [List.set_eq_of_length_le (Nat.le_of_not_lt hlt)]
    · rw [getD_set_ne _ _ _ _ hij]
  · rfl

theorem evalVisit_log (f : Evaluator) (acc : EvolutionEngine) (j : Nat) :
    (evalVisit f acc j).evalLog =
      acc.evalLog ++ (if fit acc j = 0 then [(getInd acc j).code] else []) := by
  unfold fit
  simp only [evalVisit]
  split
  case isTrue h => rfl
  case isFalse h => simp

theorem foldl_evalVisit_fit_const {f : Evaluator} {v : ℚ}
    (hf : ∀ n s, f n s = EvalOutcome.ok v) :
    ∀ (l : List Nat) (acc : EvolutionEngine), l.Nodup →
      (∀ i ∈ l, i < acc.store.length) →
      (∀ i, i ∉ l → fit (l.foldl (evalVisit f) acc) i = fit acc i)
      ∧ ∀ i ∈ l, fit (l.foldl (evalVisit f) acc) i = if fit acc i = 0 then v else fit acc i
  | [], acc, _, _ => ⟨fun _ _ => rfl, by simp⟩
  | j :: l, acc, hnd, hvalid => by
    rw [List.foldl_cons]
    have hjl : j ∉ l := (List.nodup_cons.mp hnd).1
    have hnd' : l.Nodup := (List.nodup_cons.mp hnd).2
    have hvj : j < acc.store.length := hvalid j (List.mem_cons_self _ _)
    have hvalid' : ∀ i ∈ l, i < (evalVisit f acc j).store.length := fun i hi =>
      (evalVisit_store_length f acc j).symm ▸ hvalid i (List.mem_cons_of_mem _ hi)
    rcases foldl_evalVisit_fit_const hf l (evalVisit f acc j) hnd' hvalid' with ⟨hout, hin⟩
    refine ⟨?_, ?_⟩
    · intro i hi
      have hi' : i ∉ l := fun h => hi (List.mem_cons_of_mem _ h)
      have hij : i ≠ j := by
        rintro rfl
        exact hi (List.mem_cons_self _ _)
      rw [hout i hi', evalVisit_fit_ne f acc hij]
    · intro i hi
      rcases List.mem_cons.mp hi with rfl | hi'
      · rw [hout i hjl, evalVisit_fit_self hf acc hvj]
      · have hij : i ≠ j := by
          rintro rfl
          exact hjl hi'
        rw [hin i hi', evalVisit_fit_ne f acc hij]

theorem foldl_evalVisit_log (f : Evaluator) :
    ∀ (l : List Nat) (acc : EvolutionEngine), l.Nodup →
      (l.foldl (evalVisit f) acc).evalLog
        = acc.evalLog ++ (l.filter (fun i => fit acc i = 0)).map
            (fun i => (getInd acc i).code)
  | [], acc, _ => by simp
  | j :: l, acc, hnd => by
    rw [List.foldl_cons]
    have hjl : j ∉ l := (List.nodup_cons.mp hnd).1
    have hnd' : l.Nodup := (List.nodup_cons.mp hnd).2
    rw [foldl_evalVisit_log f l _ hnd']
    have hfilter : l.filter (fun i => decide (fit (evalVisit f acc j) i = 0))
        = l.filter (fun i => decide (fit acc i = 0)) := by
      refine List.filter_congr ?_
      intro i hi
      have hij : i ≠ j := by
        rintro rfl
        exact hjl hi
      rw [evalVisit_fit_ne f acc hij]
    have hmap : ∀ (l' : List Nat),
        l'.map (fun i => (getInd (evalVisit f acc j) i).code)
          = l'.map (fun i => (getInd acc i).code) :=
      fun l' => List.map_congr_left (fun i _ => evalVisit_code f acc j i)
    rw [hfilter, hmap, evalVisit_log, List.filter_cons]
    by_cases hj0 : fit acc j = 0
    · simp [hj0, List.append_assoc]
    · simp [hj0]

theorem evalStep_log (f : Evaluator) (e : EvolutionEngine) (hnd : e.population.Nodup) :
    (evalStep f e).evalLog
      = e.evalLog ++ (e.population.filter (fun i => fit e i = 0)).map
          (fun i => (getInd e i).code) :=
  foldl_evalVisit_log f e.population _ hnd

theorem evalStep_fit_const {f : Evaluator} {v : ℚ}
    (hf : ∀ n s, f n s = EvalOutcome.ok v) (e : EvolutionEngine)
    (hnd : e.population.Nodup) (hvalid : ∀ i ∈ e.population, i < e.store.length) :
    (∀ i, i ∉ e.population → fit (evalStep f e) i = fit e i)
    ∧ ∀ i ∈ e.population, fit (evalStep f e) i = if fit e i = 0 then v else fit e i :=
  foldl_evalVisit_fit_const hf e.population _ hnd hvalid

theorem evalVisit_getInd_ne (f : Evaluator) (acc : EvolutionEngine) {i j : Nat}
    (hij : i ≠ j) : getInd (evalVisit f acc j) i = getInd acc i := by
  simp only [evalVisit]
  split
  · unfold getInd
    dsimp only
    rw [getD_set_ne _ _ _ _ (Ne.symm hij)]
  · rfl

theorem evalVisit_skip (f : Evaluator) (acc : EvolutionEngine) {j : Nat}
    (h : fit acc j ≠ 0) : evalVisit f acc j = acc := by
  unfold fit at h
  simp only [evalVisit]
  rw [if_neg h]

theorem foldl_evalVisit_getInd_ne_zero (f : Evaluator) :
    ∀ (l : List Nat) (acc : EvolutionEngine) {i : Nat}, fit acc i ≠ 0 →
      getInd (l.foldl (evalVisit f) acc) i = getInd acc i
  | [], _, _, _ => rfl
  | j :: l, acc, i, h => by
    rw [List.foldl_cons]
    by_cases hij : i = j
    · subst hij
      rw [evalVisit_skip f acc h]
      exact foldl_evalVisit_getInd_ne_zero f l acc h
    · have h1 : getInd (evalVisit f acc j) i = getInd acc i := evalVisit_getInd_ne f acc hij
      have h2 : fit (evalVisit f acc j) i ≠ 0 := by
        rw [evalVisit_fit_ne f acc hij]; exact h
      rw [foldl_evalVisit_getInd_ne_zero f l _ h2, h1]

/-- An individual whose fitness is nonzero is left untouched by `_evaluate`. -/
theorem evalStep_fit_unchanged (f : Evaluator) (e : EvolutionEngine) {i : Nat}
    (h : fit e i ≠ 0) : getInd (evalStep f e) i = getInd e i :=
  foldl_evalVisit_getInd_ne_zero f e.population _ h


/-! ### Infrastructure: the generation loop -/

theorem runLoop_zero (f : Evaluator) (m : Option Mutator) (clock : Clock)
    (gen : Nat) (e : EvolutionEngine) : runLoop f m clock 0 gen e = Except.ok e := rfl

theorem runLoop_succ (f : Evaluator) (m : Option Mutator) (clock : Clock)
    (fuel gen : Nat) (e : EvolutionEngine) :
    runLoop f m clock (fuel + 1) gen e =
      match genBody f m clock gen e with
      | Except.error err => Except.error err
      | Except.ok e' =>
        if e'.population.isEmpty then Except.error RunErr.valueError
        else if checkTermination e' then Except.ok e'
        else runLoop f m clock fuel (gen + 1) e' := rfl

theorem mutatePhase_population_extends (m : Option Mutator) (e : EvolutionEngine) :
    ∃ t, (mutatePhase m e).population = e.population ++ t := by
  cases m with
  | none => exact ⟨[], by simp [mutatePhase]⟩
  | some mu => exact mutateStep_population_extends mu e

theorem mutatePhase_config (m : Option Mutator) (e : EvolutionEngine) :
    (mutatePhase m e).config = e.config := by
  cases m with
  | none => rfl
  | some mu => exact mutateStep_config mu e

theorem mutatePhase_currentGeneration (m : Option Mutator) (e : EvolutionEngine) :
    (mutatePhase m e).currentGeneration = e.currentGeneration := by
  cases m with
  | none => rfl
  | some mu => exact mutateStep_currentGeneration mu e

theorem mutatePhase_archive (m : Option Mutator) (e : EvolutionEngine) :
    (mutatePhase m e).archive = e.archive := by
  cases m with
  | none => rfl
  | some mu => exact mutateStep_archive mu e

theorem allZero_mutatePhase (m : Option Mutator) {e : EvolutionEngine}
    (h : allZero e) : allZero (mutatePhase m e) := by
  cases m with
  | none => exact h
  | some mu => exact allZero_mutateStep mu h

theorem mutatePhase_population_ne (m : Option Mutator) {e : EvolutionEngine}
    (h : e.population ≠ []) : (mutatePhase m e).population ≠ [] := by
  rcases mutatePhase_population_extends m e with ⟨t, ht⟩
  rw [ht]
  intro hc
  exact h (List.append_eq_nil.mp hc).1

theorem genBody_eq (f : Evaluator) (m : Option Mutator) (clock : Clock) (gen : Nat)
    (e : EvolutionEngine) (hpop : e.population ≠ []) :
    genBody f m clock gen e = Except.ok (selectResult clock
      { evalStep f (mutatePhase m { e with currentGeneration := gen }) with
        state := EvolutionState.selecting }) := by
  unfold genBody
  apply selectStep_ok
  rw [evalStep_population]
  exact mutatePhase_population_ne m hpop

theorem genBody_ok_out {f : Evaluator} {m : Option Mutator} {clock : Clock}
    {gen : Nat} {e e' : EvolutionEngine} (h : genBody f m clock gen e = Except.ok e') :
    e'.config = e.config ∧ e'.currentGeneration = gen ∧ e'.archive.length ≤ 100
      ∧ e'.population.length = e.config.populationSize := by
  unfold genBody selectStep at h
  dsimp only at h
  split at h
  · cases h
  · cases h
    set eb := evalStep f (mutatePhase m { e with currentGeneration := gen }) with heb
    have hcfg : eb.config = e.config := by
      rw [heb, evalStep_config, mutatePhase_config]
    have hgen : eb.currentGeneration = gen := by
      rw [heb, evalStep_currentGeneration, mutatePhase_currentGeneration]
    refine ⟨?_, ?_, ?_, ?_⟩
    · rw [selectResult_config]; exact hcfg
    · rw [selectResult_currentGeneration]; exact hgen
    · exact selectResult_archive_length _ _
    · rw [selectResult_population_length]
      show eb.config.populationSize = e.config.populationSize
      rw [hcfg]

theorem allZero_genBody {f : Evaluator} (hf : ∀ n s, f n s = EvalOutcome.exn)
    {m : Option Mutator} {clock : Clock} {gen : Nat} {e e' : EvolutionEngine}
    (h : genBody f m clock gen e = Except.ok e') (hz : allZero e) : allZero e' := by
  unfold genBody selectStep at h
  dsimp only at h
  split at h
  · cases h
  · cases h
    exact allZero_selectResult clock
      (allZero_evalStep hf (allZero_mutatePhase m hz))

theorem runLoop_allZero {f : Evaluator} (hf : ∀ n s, f n s = EvalOutcome.exn)
    (m : Option Mutator) (clock : Clock) :
    ∀ (fuel gen : Nat) (e : EvolutionEngine), allZero e → e.population ≠ [] →
      0 < e.config.populationSize →
      ∃ e', runLoop f m clock fuel gen e = Except.ok e' ∧ allZero e'
        ∧ e'.population ≠ [] ∧ e'.config = e.config
  | 0, gen, e, hz, hpop, _ => ⟨e, rfl, hz, hpop, rfl⟩
  | fuel + 1, gen, e, hz, hpop, hps => by
    have hgb := genBody_eq f m clock gen e hpop
    set eb := selectResult clock
      { evalStep f (mutatePhase m { e with currentGeneration := gen }) with
        state := EvolutionState.selecting } with heb
    have hzb : allZero eb := allZero_genBody hf hgb hz
    have hcfg : eb.config = e.config := (genBody_ok_out hgb).1
    have hlen : eb.population.length = e.config.populationSize :=
      (genBody_ok_out hgb).2.2.2
    have hpopb : eb.population ≠ [] := by
      rw [← List.length_pos, hlen]
      exact hps
    rw [runLoop_succ, hgb]
    dsimp only
    rw [if_neg (by simp [hpopb])]
    by_cases hterm : checkTermination eb
    · rw [if_pos hterm]
      exact ⟨eb, rfl, hzb, hpopb, hcfg⟩
    · rw [if_neg hterm]
      have hps' : 0 < eb.config.populationSize := by rw [hcfg]; exact hps
      rcases runLoop_allZero hf m clock fuel (gen + 1) eb hzb hpopb hps' with
        ⟨e', h1, h2, h3, h4⟩
      exact ⟨e', h1, h2, h3, h4.trans hcfg⟩

theorem runLoop_archive (f : Evaluator) (m : Option Mutator) (clock : Clock) :
    ∀ (fuel gen : Nat) (e e' : EvolutionEngine),
      runLoop f m clock fuel gen e = Except.ok e' →
      e.archive.length ≤ 100 → e'.archive.length ≤ 100
  | 0, gen, e, e', h, ha => by
    rw [runLoop_zero] at h
    cases h
    exact ha
  | fuel + 1, gen, e, e', h, ha => by
    rw [runLoop_succ] at h
    cases hgb : genBody f m clock gen e with
    | error err => rw [hgb] at h; cases h
    | ok eb =>
      rw [hgb] at h
      dsimp only at h
      have harch : eb.archive.length ≤ 100 := (genBody_ok_out hgb).2.2.1
      by_cases hemp : eb.population.isEmpty
      · rw [if_pos hemp] at h; cases h
      · rw [if_neg hemp] at h
        by_cases hterm : checkTermination eb
        · rw [if_pos hterm] at h; cases h; exact harch
        · rw [if_neg hterm] at h
          exact runLoop_archive f m clock fuel (gen + 1) eb e' h harch

/-! ### Infrastructure: freshly initialised engines -/

theorem initPopulation_population_length (e : EvolutionEngine) (seeds : List String) :
    (initPopulation e seeds).population.length = seeds.length := by
  show (List.range' e.store.length seeds.length).length = seeds.length
  rw [List.length_range']

theorem allZero_initPopulation (e : EvolutionEngine) (seeds : List String)
    (h : allZero e) : allZero (initPopulation e seeds) := by
  intro ind hm
  rcases List.mem_append.mp hm with hm' | hm'
  · exact h _ hm'
  · rcases List.mem_map.mp hm' with ⟨c, _, rfl⟩
    rfl

theorem allZero_mkEngine (cfg : EvolutionConfig) : allZero (mkEngine cfg) :=
  fun _ h => absurd h (List.not_mem_nil _)


/-! ### Observers used to state concrete executions without binders -/

/-- Generation counter of the final engine state of a successful `run()`. -/
def finalGeneration (r : Except RunErr (Individual × EvolutionEngine)) : Option Nat :=
  match r with
  | Except.ok (_, e) => some e.currentGeneration
  | Except.error _ => none

/-- Fitness of the individual returned by a successful `run()`. -/
def returnedFitness (r : Except RunErr (Individual × EvolutionEngine)) : Option ℚ :=
  match r with
  | Except.ok (ind, _) => some ind.fitness
  | Except.error _ => none

/-- Population payloads of the final engine state of a successful `run()`. -/
def finalPopCodes (r : Except RunErr (Individual × EvolutionEngine)) : Option (List String) :=
  match r with
  | Except.ok (_, e) => some (popCodes e)
  | Except.error _ => none

theorem mutatePhase_population_nil (m : Option Mutator) {e : EvolutionEngine}
    (h : e.population = []) : (mutatePhase m e).population = [] := by
  cases m with
  | none => exact h
  | some mu =>
    show (mutateStep mu e).population = []
    unfold mutateStep
    have he : selectedElite { e with state := EvolutionState.mutating } = [] :=
      (selectedElite_eq_nil_iff _).mpr h
    dsimp only
    rw [he]
    exact h

theorem evalStep_store_length (f : Evaluator) (e : EvolutionEngine) :
    (evalStep f e).store.length = e.store.length :=
  foldl_evalVisit_store_length f _ _

theorem headD_mem {l : List Nat} (h : l ≠ []) : l.headD 0 ∈ l := by
  rcases l with _ | ⟨a, t⟩
  · exact absurd rfl h
  · exact List.mem_cons_self _ _

theorem getInd_selectResult_pad (clock : Clock) (e : EvolutionEngine) {j : Nat}
    (hj : j < fillCount e) :
    getInd (selectResult clock e) (e.store.length + j)
      = padIndividual clock (e.clockTicks + j)
          (getInd e ((selectedElite e).headD 0)) ((selectedElite e).headD 0)
          e.currentGeneration := by
  unfold getInd
  rw [selectResult_store, getD_append_ge _ _ _ (Nat.le_add_right _ _),
    Nat.add_sub_cancel_left, getD_map_range _ _ _ hj]
  rfl

theorem checkTermination_iff (e : EvolutionEngine) :
    checkTermination e = true ↔
      (e.population = [] ∨ 1 ≤ maxFit e
        ∨ (10 ≤ e.archive.length ∧ maxFit e ≤ recentArchiveFitness e)) := by
  unfold checkTermination
  split_ifs with h1 h2 h3
  · exact iff_of_true rfl (Or.inl (List.isEmpty_iff.mp h1))
  · exact iff_of_true rfl (Or.inr (Or.inl h2))
  · exact iff_of_true rfl (Or.inr (Or.inr h3))
  · constructor
    · intro hc
      exact absurd hc (by simp)
    · rintro (hc | hc | hc)
      · exact absurd (List.isEmpty_iff.mpr hc) (by simpa using h1)
      · exact absurd hc h2
      · exact absurd hc h3

/-! ### The claims -/

/-- C1: for every non-empty list of N seed payloads, `initialize(seeds)`
replaces the live population with exactly N Individuals, each at generation 0
with the unevaluated sentinel fitness `0.0` and no parent reference, resets
the generation counter to 0, sets the engine state to Idle, and leaves the
Archive unchanged. -/
theorem c1_initialize_spec (e : EvolutionEngine) (seeds : List String)
    (_hseeds : seeds ≠ []) :
    (initPopulation e seeds).population.length = seeds.length
    ∧ (initPopulation e seeds).population.map (getInd (initPopulation e seeds))
        = seeds.map (fun c =>
            { code := c, fitness := 0, generation := 0, parentId := none })
    ∧ (initPopulation e seeds).currentGeneration = 0
    ∧ (initPopulation e seeds).state = EvolutionState.idle
    ∧ (initPopulation e seeds).archive = e.archive := by
  refine ⟨initPopulation_population_length e seeds, ?_, rfl, rfl, rfl⟩
  show (List.range' e.store.length seeds.length).map
      (fun i => (e.store ++ seeds.map seedIndividual).getD i default) = _
  have h := range'_map_getD (seeds.map seedIndividual) e.store
  rw [List.length_map] at h
  rw [h]
  rfl

theorem c1_initialize_spec_witness :
    (["a", "b"] : List String) ≠ []
    ∧ ((initPopulation (mkEngine {}) ["a", "b"]).population.length
          = (["a", "b"] : List String).length
      ∧ (initPopulation (mkEngine {}) ["a", "b"]).population.map
            (getInd (initPopulation (mkEngine {}) ["a", "b"]))
          = (["a", "b"] : List String).map (fun c =>
              { code := c, fitness := 0, generation := 0, parentId := none })
      ∧ (initPopulation (mkEngine {}) ["a", "b"]).currentGeneration = 0
      ∧ (initPopulation (mkEngine {}) ["a", "b"]).state = EvolutionState.idle
      ∧ (initPopulation (mkEngine {}) ["a", "b"]).archive = (mkEngine {}).archive) :=
  ⟨by simp, c1_initialize_spec (mkEngine {}) ["a", "b"] (by simp)⟩

/-- The configuration of the C2 counterexample: one survivor per generation,
20 configured generations. -/
def cfgC2 : EvolutionConfig :=
  { populationSize := 1, eliteRatio := 1, maxGenerations := 20 }

/-- C2 (counterexample): with a single seed, `population_size = 1`,
`elite_ratio = 1.0` and `max_generations = 20`, an evaluator that raises on
every call makes `run()` return successfully — best fitness `0.0` — but at
generation index 9 (its 10th iteration), because the archive has reached 10
entries and `best <= archive[-1].fitness` fires (`0.0 <= 0.0`); the claim
that it terminates only after completing all `max_generations` iterations is
false. -/
theorem c2_counterexample :
    finalGeneration (run (fun _ _ => EvalOutcome.exn) none (fun _ => "t")
        (initPopulation (mkEngine cfgC2) ["seed"])) = some 9
    ∧ returnedFitness (run (fun _ _ => EvalOutcome.exn) none (fun _ => "t")
        (initPopulation (mkEngine cfgC2) ["seed"])) = some 0
    ∧ cfgC2.maxGenerations = 20 := by
  refine ⟨?_, ?_, rfl⟩ <;> decide

/-- C2 (amended): if the evaluator raises on every call, `run()` absorbs each
failure per-individual (fitness set to `0.0`), never propagates an exception,
and returns an individual of fitness `0.0` — but it may stop before
`max_generations`: once the archive holds 10 entries the no-improvement check
fires, since `0.0 <= 0.0`. -/
theorem c2_failing_evaluator (cfg : EvolutionConfig) (seeds : List String)
    (m : Option Mutator) (clock : Clock) (f : Evaluator)
    (hf : ∀ n s, f n s = EvalOutcome.exn)
    (hseeds : seeds ≠ []) (hps : 0 < cfg.populationSize) :
    ∃ ind e', run f m clock (initPopulation (mkEngine cfg) seeds)
        = Except.ok (ind, e') ∧ ind.fitness = 0 := by
  have hz : allZero (initPopulation (mkEngine cfg) seeds) :=
    allZero_initPopulation _ _ (allZero_mkEngine cfg)
  have hpop : (initPopulation (mkEngine cfg) seeds).population ≠ [] := by
    rw [← List.length_pos, initPopulation_population_length]
    exact List.length_pos.mpr hseeds
  rcases runLoop_allZero hf m clock
      (initPopulation (mkEngine cfg) seeds).config.maxGenerations 0
      (initPopulation (mkEngine cfg) seeds) hz hpop hps with ⟨e', h1, h2, h3, _⟩
  unfold run
  rw [h1]
  dsimp only
  rcases hp : e'.population with _ | ⟨p, ps⟩
  · exact absurd hp h3
  · rcases bestId_spec e' hp with ⟨k, hk, _, _⟩
    rw [hk]
    exact ⟨getInd e' k, _, rfl, fit_of_allZero h2 k⟩

/-- An evaluator that raises on every call. -/
def failEvalC2 : Evaluator := fun _ _ => EvalOutcome.exn

theorem c2_failing_evaluator_witness :
    (∀ n s, failEvalC2 n s = EvalOutcome.exn)
    ∧ (["x"] : List String) ≠ []
    ∧ 0 < ({ populationSize := 2 } : EvolutionConfig).populationSize
    ∧ ∃ ind e', run failEvalC2 none (fun _ => "t")
        (initPopulation (mkEngine { populationSize := 2 }) ["x"])
        = Except.ok (ind, e') ∧ ind.fitness = 0 :=
  ⟨fun _ _ => rfl, by simp, by decide,
    c2_failing_evaluator { populationSize := 2 } ["x"] none (fun _ => "t")
      failEvalC2 (fun _ _ => rfl) (by simp) (by decide)⟩


/-- C7 (counterexample): calling `run()` on a freshly constructed engine —
`initialize()` never called — does not surface any `EngineStateConflict`
(no such mechanism exists anywhere in `core.py`); it escapes with the
`IndexError` raised by `elite[0]` in the fill loop of `_select`, an
unrelated exception. -/
theorem c7_counterexample :
    run (fun _ _ => EvalOutcome.exn) none (fun _ => "t") (mkEngine {})
      = Except.error RunErr.indexError := by
  decide

/-- C7 (amended): for every configuration with a positive population size and
at least one generation, invoking `run()` before `initialize()` fails with
the `IndexError` from `elite[0]` on the empty elite list — not with an
`EngineStateConflict`, which the code never defines or raises. -/
theorem c7_uninitialized_run (cfg : EvolutionConfig) (f : Evaluator)
    (m : Option Mutator) (clock : Clock) (hps : 0 < cfg.populationSize)
    (hmg : 0 < cfg.maxGenerations) :
    run f m clock (mkEngine cfg) = Except.error RunErr.indexError := by
  have hpop0 : (mutatePhase m { mkEngine cfg with currentGeneration := 0 }).population = [] :=
    mutatePhase_population_nil m rfl
  have hpop1 : (evalStep f (mutatePhase m
      { mkEngine cfg with currentGeneration := 0 })).population = [] := by
    rw [evalStep_population]
    exact hpop0
  have hgb : genBody f m clock 0 (mkEngine cfg) = Except.error RunErr.indexError := by
    unfold genBody
    refine selectStep_error _ _ hpop1 ?_
    rw [evalStep_config, mutatePhase_config]
    exact hps
  rcases Nat.exists_eq_succ_of_ne_zero (Nat.pos_iff_ne_zero.mp hmg) with ⟨k, hk⟩
  have hloop : runLoop f m clock (mkEngine cfg).config.maxGenerations 0 (mkEngine cfg)
      = Except.error RunErr.indexError := by
    show runLoop f m clock cfg.maxGenerations 0 (mkEngine cfg) = _
    rw [hk, runLoop_succ, hgb]
  unfold run
  rw [hloop]

theorem c7_uninitialized_run_witness :
    0 < ({} : EvolutionConfig).populationSize
    ∧ 0 < ({} : EvolutionConfig).maxGenerations
    ∧ run (fun _ _ => EvalOutcome.ok 1) none (fun _ => "t") (mkEngine {})
        = Except.error RunErr.indexError :=
  ⟨by decide, by decide,
    c7_uninitialized_run {} (fun _ _ => EvalOutcome.ok 1) none (fun _ => "t")
      (by decide) (by decide)⟩

/-- The configuration of the C8 counterexample: two slots filled from one
seed, so selection must create one padding individual. -/
def cfgC8 : EvolutionConfig :=
  { populationSize := 2, eliteRatio := mkRat 1 2, maxGenerations := 1 }

/-- C8 (counterexample): two runs from identical seed payloads, identical
configuration and identical collaborator results — only the wall clock reads
differ — produce different payloads for the padding individual, because
`_apply_mutation` embeds `datetime.now().isoformat()` in the marker comment.
The claimed run-to-run determinism is false. -/
theorem c8_counterexample :
    finalPopCodes (run (fun _ _ => EvalOutcome.exn) none
        (fun _ => "2025-01-01T00:00:00") (initPopulation (mkEngine cfgC8) ["s"]))
      = some ["s", "# Generated: 2025-01-01T00:00:00\ns"]
    ∧ finalPopCodes (run (fun _ _ => EvalOutcome.exn) none
        (fun _ => "2025-01-01T00:00:01") (initPopulation (mkEngine cfgC8) ["s"]))
      = some ["s", "# Generated: 2025-01-01T00:00:01\ns"]
    ∧ finalPopCodes (run (fun _ _ => EvalOutcome.exn) none
        (fun _ => "2025-01-01T00:00:00") (initPopulation (mkEngine cfgC8) ["s"]))
      ≠ finalPopCodes (run (fun _ _ => EvalOutcome.exn) none
        (fun _ => "2025-01-01T00:00:01") (initPopulation (mkEngine cfgC8) ["s"])) := by
  refine ⟨?_, ?_, ?_⟩ <;> decide

/-- C8 (amended): the fill/padding marker mutation is the pure function
`payload ↦ "# Generated: " ++ timestamp ++ "\n" ++ payload` of the parent
payload and the wall-clock reading; it is injective in the timestamp, and
every padding individual created by `_select` carries exactly this payload
for the clock reading consumed at its creation.  Determinism across runs
therefore holds exactly when the clock readings coincide. -/
theorem c8_fill_marker (now now' code : String) :
    applyMutation now code = "# Generated: " ++ now ++ "\n" ++ code
    ∧ (applyMutation now code = applyMutation now' code ↔ now = now')
    ∧ ∀ (clock : Clock) (e : EvolutionEngine) (j : Nat), j < fillCount e →
        (getInd (selectResult clock e) (e.store.length + j)).code
          = applyMutation (clock (e.clockTicks + j))
              (getInd e ((selectedElite e).headD 0)).code := by
  refine ⟨rfl, ?_, ?_⟩
  · constructor
    · intro h
      have hd := congrArg String.data h
      simp only [applyMutation, String.data_append] at hd
      have h1 := List.append_cancel_right (List.append_cancel_right hd)
      have h2 := List.append_cancel_left h1
      exact String.ext h2
    · intro h
      rw [h]
  · intro clock e j hj
    rw [getInd_selectResult_pad clock e hj]
    rfl

theorem c8_fill_marker_witness :
    0 < fillCount (initPopulation (mkEngine cfgC8) ["s"])
    ∧ (applyMutation "A" "c" = "# Generated: " ++ "A" ++ "\n" ++ "c"
      ∧ (applyMutation "A" "c" = applyMutation "B" "c" ↔ "A" = "B")
      ∧ ∀ (clock : Clock) (e : EvolutionEngine) (j : Nat), j < fillCount e →
          (getInd (selectResult clock e) (e.store.length + j)).code
            = applyMutation (clock (e.clockTicks + j))
                (getInd e ((selectedElite e).headD 0)).code) :=
  ⟨by decide, c8_fill_marker "A" "B" "c"⟩

/-- The evaluator of the C10 execution: the first call raises (fitness
defaults to `0.0`), every later call scores `2.0`. -/
def evalC10 : Evaluator := fun n _ =>
  if n = 0 then EvalOutcome.exn else EvalOutcome.ok 2

/-- The engine of the C10 execution: one seed, one survivor per generation. -/
def engineC10 : EvolutionEngine :=
  initPopulation (mkEngine { populationSize := 1, eliteRatio := 1 }) ["s"]

/-- The state after generation 0 of the C10 execution (evaluation failed, the
sole individual was archived with fitness `0.0` and retained). -/
def c10gen0 : EvolutionEngine :=
  (genBody evalC10 none (fun _ => "t") 0 engineC10).toOption.getD engineC10

/-- C10: the Archive stores references, not copies.  In this execution the
sole individual (store index 0) is archived with fitness `0.0` at the end of
generation 0 and retained in the population; generation 1's evaluation phase
re-evaluates it (fitness `0.0` sentinel) and the evaluator now returns `2.0`,
which retroactively changes the fitness of the already-archived entry — the
very `archive[-1].fitness` the no-improvement termination check reads —
while the archive list itself is untouched. -/
theorem c10_archive_aliasing :
    genBody evalC10 none (fun _ => "t") 0 engineC10 = Except.ok c10gen0
    ∧ c10gen0.archive = [0]
    ∧ c10gen0.population = [0]
    ∧ recentArchiveFitness c10gen0 = 0
    ∧ (evalStep evalC10 { c10gen0 with currentGeneration := 1 }).archive
        = c10gen0.archive
    ∧ recentArchiveFitness (evalStep evalC10
        { c10gen0 with currentGeneration := 1 }) = 2 := by
  refine ⟨?_, ?_, ?_, ?_, ?_, ?_⟩ <;> decide


/-- C9: `_evaluate` submits to the evaluator exactly the individuals whose
fitness equals `0.0` — whether never evaluated, genuinely scored `0.0`, or
defaulted to `0.0` after an evaluation failure — so any such individual is
submitted again in every subsequent generation's evaluation phase; an
individual with nonzero fitness is exempt and left untouched. -/
theorem c9_reevaluation (f : Evaluator) (e : EvolutionEngine)
    (hnd : e.population.Nodup) :
    (evalStep f e).evalLog
      = e.evalLog ++ (e.population.filter (fun i => fit e i = 0)).map
          (fun i => (getInd e i).code)
    ∧ ∀ i, fit e i ≠ 0 → getInd (evalStep f e) i = getInd e i :=
  ⟨evalStep_log f e hnd, fun _ h => evalStep_fit_unchanged f e h⟩

/-- A two-individual engine: index 0 unevaluated (fitness `0.0`), index 1
already scored (fitness `1.0`). -/
def engineC9 : EvolutionEngine :=
  { config := {},
    store := [{ code := "a", fitness := 0, generation := 0, parentId := none },
      { code := "b", fitness := 1, generation := 0, parentId := none }],
    population := [0, 1], archive := [], state := EvolutionState.idle,
    currentGeneration := 0, evalLog := [], mutCalls := 0, clockTicks := 0 }

theorem c9_reevaluation_witness :
    engineC9.population.Nodup
    ∧ ((evalStep (fun _ _ => EvalOutcome.ok 1) engineC9).evalLog
        = engineC9.evalLog
          ++ (engineC9.population.filter (fun i => fit engineC9 i = 0)).map
              (fun i => (getInd engineC9 i).code)
      ∧ ∀ i, fit engineC9 i ≠ 0 →
          getInd (evalStep (fun _ _ => EvalOutcome.ok 1) engineC9) i
            = getInd engineC9 i) :=
  ⟨by decide, c9_reevaluation (fun _ _ => EvalOutcome.ok 1) engineC9 (by decide)⟩

/-- C6: the Archive never exceeds 100 entries.  After any selection phase the
archive is exactly the last 100 (or fewer) entries, in insertion order, of
the old archive extended with the new elites — the oldest entries are the
ones dropped, independent of fitness — and the bound is preserved over any
number of generations of the loop. -/
theorem c6_archive_bound :
    (∀ (clock : Clock) (e e' : EvolutionEngine),
      selectStep clock e = Except.ok e' →
        e'.archive.length ≤ 100
        ∧ e'.archive = (e.archive ++ selectedElite e).drop
            ((e.archive ++ selectedElite e).length - 100)
        ∧ (100 < (e.archive ++ selectedElite e).length → e'.archive.length = 100))
    ∧ ∀ (f : Evaluator) (m : Option Mutator) (clock : Clock) (fuel gen : Nat)
        (e e' : EvolutionEngine),
        runLoop f m clock fuel gen e = Except.ok e' →
        e.archive.length ≤ 100 → e'.archive.length ≤ 100 := by
  constructor
  · intro clock e e' h
    unfold selectStep at h
    dsimp only at h
    split at h
    · cases h
    · cases h
      refine ⟨selectResult_archive_length _ _, ?_, ?_⟩
      · exact selectResult_archive clock _
      · intro hover
        exact selectResult_archive_length_overflow clock _ hover
  · intro f m clock fuel gen e e' h ha
    exact runLoop_archive f m clock fuel gen e e' h ha

/-- The engine of the C6 witness: one survivor per generation. -/
def engineC6 : EvolutionEngine :=
  initPopulation (mkEngine { populationSize := 1, eliteRatio := 1 }) ["s"]

/-- The C6 witness state after one selection phase. -/
def c6sel : EvolutionEngine :=
  (selectStep (fun _ => "t") engineC6).toOption.getD engineC6

/-- The C6 witness state after a 200-generation loop budget (the loop stops
early at the tenth generation on the no-improvement check). -/
def c6loop : EvolutionEngine :=
  (runLoop (fun _ _ => EvalOutcome.exn) none (fun _ => "t") 200 0
    engineC6).toOption.getD engineC6

theorem c6_archive_bound_witness :
    selectStep (fun _ => "t") engineC6 = Except.ok c6sel
    ∧ runLoop (fun _ _ => EvalOutcome.exn) none (fun _ => "t") 200 0 engineC6
        = Except.ok c6loop
    ∧ engineC6.archive.length ≤ 100
    ∧ (c6sel.archive.length ≤ 100
      ∧ c6sel.archive = (engineC6.archive ++ selectedElite engineC6).drop
          ((engineC6.archive ++ selectedElite engineC6).length - 100)
      ∧ (100 < (engineC6.archive ++ selectedElite engineC6).length →
          c6sel.archive.length = 100))
    ∧ c6loop.archive.length ≤ 100 :=
  ⟨by decide, by decide, by decide,
    c6_archive_bound.1 (fun _ => "t") engineC6 c6sel (by decide),
    c6_archive_bound.2 (fun _ _ => EvalOutcome.exn) none (fun _ => "t") 200 0
      engineC6 c6loop (by decide) (by decide)⟩


/-- The population of the C5 example: four individuals with fitnesses
`[0.9, 0.1, 0.5, 0.3]`, elite ratio `0.5`. -/
def engineC5 : EvolutionEngine :=
  { config := { eliteRatio := mkRat 1 2 },
    store := [{ code := "p", fitness := mkRat 9 10, generation := 0, parentId := none },
      { code := "q", fitness := mkRat 1 10, generation := 0, parentId := none },
      { code := "r", fitness := mkRat 1 2, generation := 0, parentId := none },
      { code := "s", fitness := mkRat 3 10, generation := 0, parentId := none }],
    population := [0, 1, 2, 3], archive := [], state := EvolutionState.idle,
    currentGeneration := 0, evalLog := [], mutCalls := 0, clockTicks := 0 }

/-- A two-individual engine with a fitness tie, exercising sort stability. -/
def engineC5tie : EvolutionEngine :=
  { config := {},
    store := [{ code := "t0", fitness := 1, generation := 0, parentId := none },
      { code := "t1", fitness := 1, generation := 0, parentId := none }],
    population := [0, 1], archive := [], state := EvolutionState.idle,
    currentGeneration := 0, evalLog := [], mutCalls := 0, clockTicks := 0 }

/-- C5: in every selection phase the elite set is the top
`eliteCount = max(1, floor(len * elite_ratio))` individuals of the stable
fitness-descending sort of the population: the elite is that prefix, the
sort is a fitness-descending-sorted permutation of the population, every
dropped individual scores no higher than any elite, and equal-fitness pairs
keep their prior relative order.  In particular for fitnesses
`[0.9, 0.1, 0.5, 0.3]` and `elite_ratio = 0.5` the elite fitnesses are
exactly `[0.9, 0.5]`. -/
theorem c5_elitism :
    (∀ e : EvolutionEngine,
      selectedElite e = (sortIds e e.population).take
          (eliteCount e.population.length e.config.eliteRatio)
      ∧ (sortIds e e.population).Sorted (fitGE e)
      ∧ List.Perm (sortIds e e.population) e.population
      ∧ (∀ i ∈ selectedElite e,
          ∀ j ∈ (sortIds e e.population).drop
            (eliteCount e.population.length e.config.eliteRatio),
          fit e j ≤ fit e i)
      ∧ ∀ a b : Nat, fit e a = fit e b → List.Sublist [a, b] e.population →
          List.Sublist [a, b] (sortIds e e.population))
    ∧ eliteCount 4 (mkRat 1 2) = 2
    ∧ (selectedElite engineC5).map (fit engineC5) = [mkRat 9 10, mkRat 1 2] := by
  refine ⟨?_, by decide, by decide⟩
  intro e
  refine ⟨rfl, sortIds_sorted e e.population, sortIds_perm e e.population, ?_, ?_⟩
  · intro i hi j hj
    have hs : (sortIds e e.population).Sorted (fitGE e) := sortIds_sorted e e.population
    set k := eliteCount e.population.length e.config.eliteRatio with hk
    have hsplit := List.take_append_drop k (sortIds e e.population)
    rw [← hsplit] at hs
    exact (List.pairwise_append.mp hs).2.2 i hi j hj
  · intro a b hfit hsub
    exact List.pair_sublist_insertionSort (le_of_eq hfit.symm) hsub

theorem c5_elitism_witness :
    (0 ∈ selectedElite engineC5)
    ∧ (3 ∈ (sortIds engineC5 engineC5.population).drop
        (eliteCount engineC5.population.length engineC5.config.eliteRatio))
    ∧ fit engineC5 3 ≤ fit engineC5 0
    ∧ fit engineC5tie 0 = fit engineC5tie 1
    ∧ List.Sublist [0, 1] engineC5tie.population
    ∧ List.Sublist [0, 1] (sortIds engineC5tie engineC5tie.population) :=
  ⟨by decide, by decide,
    (c5_elitism.1 engineC5).2.2.2.1 0 (by decide) 3 (by decide),
    by decide, by decide,
    (c5_elitism.1 engineC5tie).2.2.2.2 0 1 (by decide) (by decide)⟩


/-- Core of C4: one generation with a constant `0.7` evaluator and no
mutation collaborator, from any well-formed engine whose individuals are all
unevaluated. -/
theorem c4_core (e0 : EvolutionEngine) (clock : Clock) (f : Evaluator)
    (hf : ∀ n s, f n s = EvalOutcome.ok (7/10 : ℚ))
    (hnd : e0.population.Nodup) (hvalid : ∀ i ∈ e0.population, i < e0.store.length)
    (hz : allZero e0) (hpop : e0.population ≠ [])
    (hps : 0 < e0.config.populationSize) (hmg : e0.config.maxGenerations = 1) :
    ∃ ind e', run f none clock e0 = Except.ok (ind, e')
      ∧ e'.population.length = e0.config.populationSize
      ∧ ind.fitness = 7/10
      ∧ ∀ i ∈ e'.population, fit e' i = 7/10
          ∨ ((getInd e' i).fitness = 0 ∧ (getInd e' i).generation = 1
              ∧ ∃ pid, (getInd e' i).parentId = some pid ∧ fit e' pid = 7/10) := by
  have hzX : allZero ({ e0 with currentGeneration := 0 } : EvolutionEngine) := hz
  -- after `_evaluate`, every population member scores 7/10 and nothing else moved
  rcases evalStep_fit_const hf ({ e0 with currentGeneration := 0 }) hnd hvalid
    with ⟨hout, hin⟩
  have hfitE : ∀ i ∈ e0.population,
      fit (evalStep f { e0 with currentGeneration := 0 }) i = 7/10 := by
    intro i hi
    have h := hin i hi
    rw [fit_of_allZero hzX i] at h
    simpa using h
  have hpopE : (evalStep f { e0 with currentGeneration := 0 }).population
      = e0.population := evalStep_population f _
  have hstoreE : (evalStep f { e0 with currentGeneration := 0 }).store.length
      = e0.store.length := evalStep_store_length f _
  have hgenE : (evalStep f { e0 with currentGeneration := 0 }).currentGeneration
      = 0 := evalStep_currentGeneration f _
  have hcfgE : (evalStep f { e0 with currentGeneration := 0 }).config
      = e0.config := evalStep_config f _
  -- the selection phase succeeds
  have hgb : genBody f none clock 0 e0 = Except.ok (selectResult clock
      { evalStep f { e0 with currentGeneration := 0 } with
        state := EvolutionState.selecting }) :=
    genBody_eq f none clock 0 e0 hpop
  -- abbreviations are definitional: Es is the engine entering `_select`
  set Es : EvolutionEngine :=
    { evalStep f { e0 with currentGeneration := 0 } with
      state := EvolutionState.selecting } with hEs
  set S : EvolutionEngine := selectResult clock Es with hS
  have hfitEs : ∀ i ∈ e0.population, fit Es i = 7/10 := hfitE
  have hpopEs : Es.population = e0.population := hpopE
  have hstoreEs : Es.store.length = e0.store.length := hstoreE
  have hgenEs : Es.currentGeneration = 0 := hgenE
  -- the best elite parent that padding individuals point at
  have helite_ne : selectedElite Es ≠ [] := by
    intro hc
    exact hpop (hpopEs ▸ (selectedElite_eq_nil_iff Es).mp hc)
  have hpidmem : (selectedElite Es).headD 0 ∈ e0.population :=
    hpopEs ▸ selectedElite_subset Es (headD_mem helite_ne)
  have hfitpid : fit S ((selectedElite Es).headD 0) = 7/10 := by
    have h1 : fit Es ((selectedElite Es).headD 0) = 7/10 := hfitEs _ hpidmem
    have h2 : (selectedElite Es).headD 0 < Es.store.length :=
      fit_valid (by rw [h1]; norm_num)
    rw [hS, fit_selectResult_low clock Es h2, h1]
  -- the population after selection: elites at 7/10, fillers at 0
  have hchar : ∀ i ∈ S.population, fit S i = 7/10
      ∨ ((getInd S i).fitness = 0 ∧ (getInd S i).generation = 1
          ∧ ∃ pid, (getInd S i).parentId = some pid ∧ fit S pid = 7/10) := by
    intro i hi
    rw [hS, selectResult_population] at hi
    rcases List.mem_append.mp hi with hmem | hmem
    · left
      have h1 : i ∈ selectedElite Es := List.mem_of_mem_take hmem
      have h2 : i ∈ e0.population := hpopEs ▸ selectedElite_subset Es h1
      have h3 : fit Es i = 7/10 := hfitEs i h2
      have h4 : i < Es.store.length := fit_valid (by rw [h3]; norm_num)
      rw [hS, fit_selectResult_low clock Es h4, h3]
    · right
      rcases List.mem_range'.mp hmem with ⟨j, hj, hij⟩
      rw [Nat.one_mul] at hij
      subst hij
      have hpad := getInd_selectResult_pad clock Es hj
      rw [hS, hpad]
      refine ⟨rfl, ?_, ⟨(selectedElite Es).headD 0, rfl, hfitpid⟩⟩
      show Es.currentGeneration + 1 = 1
      rw [hgenEs]
  have hlenS : S.population.length = e0.config.populationSize :=
    (genBody_ok_out hgb).2.2.2
  have hpopS : S.population ≠ [] := by
    rw [← List.length_pos, hlenS]
    exact hps
  -- one loop iteration, stop (whether or not the termination check fires)
  have hloop : runLoop f none clock 1 0 e0 = Except.ok S := by
    rw [runLoop_succ, hgb]
    dsimp only
    rw [if_neg (by simp [hpopS])]
    by_cases hterm : checkTermination S
    · rw [if_pos hterm]
    · rw [if_neg hterm]
      exact runLoop_zero f none clock 1 S
  -- `run` returns the first fitness-maximal individual
  unfold run
  rw [hmg, hloop]
  dsimp only
  have hcons : ∃ p ps, S.population = p :: ps := by
    rcases hsp : S.population with _ | ⟨p, ps⟩
    · exact absurd hsp hpopS
    · exact ⟨p, ps, rfl⟩
  rcases hcons with ⟨p, ps, hp⟩
  rcases bestId_spec S hp with ⟨k, hk, hkmem, hkmax⟩
  rw [hk]
  dsimp only
  refine ⟨getInd S k, { S with state := EvolutionState.completed }, rfl, hlenS, ?_, hchar⟩
    -- the returned fitness is 7/10: it dominates an elite at 7/10 and is
    -- either 7/10 or a filler at 0
  have hub : (7/10 : ℚ) ≤ fit S k := by
    have h1 : (7/10 : ℚ) ≤ maxFit S := by
      rcases List.exists_mem_of_ne_nil e0.population hpop with ⟨i0, hi0⟩
      exact hS ▸ selectResult_keeps_max clock Es (by norm_num)
        (hpopEs ▸ hi0) (le_of_eq (hfitEs i0 hi0).symm)
        (by rw [hEs]; show (evalStep f _).config.populationSize > 0;
            rw [hcfgE]; exact hps)
    exact le_trans h1 (maxFit_le S hkmax (fun hc => absurd hc hpopS))
  rcases hchar k hkmem with hc | hc
  · exact hc
  · exfalso
    have : fit S k = 0 := hc.1
    rw [this] at hub
    norm_num at hub

/-- C4: with a constant evaluator returning `0.7`, no mutate collaborator and
`max_generations = 1`, `run()` leaves a final population of exactly
`population_size` individuals — the elites (scored `0.7`) truncated to
`population_size`, padded where needed by fill-mutated clones of the single
best elite carrying generation `current+1 = 1` and the parent reference of a
`0.7`-elite — and returns a best individual of fitness `0.7`. -/
theorem c4_constant_evaluator (cfg : EvolutionConfig) (seeds : List String)
    (clock : Clock) (f : Evaluator)
    (hf : ∀ n s, f n s = EvalOutcome.ok (7/10 : ℚ))
    (hseeds : seeds ≠ []) (hps : 0 < cfg.populationSize)
    (hmg : cfg.maxGenerations = 1) :
    ∃ ind e', run f none clock (initPopulation (mkEngine cfg) seeds)
        = Except.ok (ind, e')
      ∧ e'.population.length = cfg.populationSize
      ∧ ind.fitness = 7/10
      ∧ ∀ i ∈ e'.population,
          fit e' i = 7/10
          ∨ ((getInd e' i).fitness = 0 ∧ (getInd e' i).generation = 1
              ∧ ∃ pid, (getInd e' i).parentId = some pid
                  ∧ fit e' pid = 7/10) := by
  refine c4_core (initPopulation (mkEngine cfg) seeds) clock f hf ?_ ?_ ?_ ?_ hps hmg
  · show (List.range' 0 seeds.length).Nodup
    exact List.nodup_range' 0 seeds.length
  · intro i hi
    rcases List.mem_range'.mp hi with ⟨j, hj, hij⟩
    show i < ((mkEngine cfg).store ++ seeds.map seedIndividual).length
    rw [List.length_append, List.length_map]
    omega
  · exact allZero_initPopulation _ _ (allZero_mkEngine cfg)
  · rw [← List.length_pos, initPopulation_population_length]
    exact List.length_pos.mpr hseeds


/-- The constant `0.7` evaluator of the C4 witness. -/
def evalC4 : Evaluator := fun _ _ => EvalOutcome.ok (7/10)

/-- The configuration of the C4 witness: three seeds shrink to one elite and
one filler. -/
def cfgC4 : EvolutionConfig := { populationSize := 2, maxGenerations := 1 }

theorem c4_constant_evaluator_witness :
    (∀ n s, evalC4 n s = EvalOutcome.ok (7/10 : ℚ))
    ∧ (["s1", "s2", "s3"] : List String) ≠ []
    ∧ 0 < cfgC4.populationSize
    ∧ cfgC4.maxGenerations = 1
    ∧ ∃ ind e', run evalC4 none (fun _ => "t")
        (initPopulation (mkEngine cfgC4) ["s1", "s2", "s3"]) = Except.ok (ind, e')
      ∧ e'.population.length = cfgC4.populationSize
      ∧ ind.fitness = 7/10
      ∧ ∀ i ∈ e'.population,
          fit e' i = 7/10
          ∨ ((getInd e' i).fitness = 0 ∧ (getInd e' i).generation = 1
              ∧ ∃ pid, (getInd e' i).parentId = some pid
                  ∧ fit e' pid = 7/10) :=
  ⟨fun _ _ => rfl, by simp, by decide, rfl,
    c4_constant_evaluator cfgC4 ["s1", "s2", "s3"] (fun _ => "t") evalC4
      (fun _ _ => rfl) (by simp) (by decide) rfl⟩

/-- C3: termination of the generation loop.  The `_check_termination`
predicate consulted after each selection phase holds exactly when the
population is empty, or the best fitness in the current population is at
least `1.0`, or the archive holds at least 10 entries and the best fitness
does not exceed the fitness of the most recently appended archive entry
(whatever its rank).  When the post-selection best fitness reaches `1.0`,
the loop returns at that very iteration (the generation counter stays at the
current index), regardless of how much fuel remains — and any population
member scoring at least `1.0` before selection keeps the post-selection best
at `1.0` or above, since the fitness-maximal individual always survives
selection. -/
theorem c3_termination :
    (∀ e : EvolutionEngine, checkTermination e = true ↔
        (e.population = [] ∨ 1 ≤ maxFit e
          ∨ (10 ≤ e.archive.length ∧ maxFit e ≤ recentArchiveFitness e)))
    ∧ (∀ (f : Evaluator) (m : Option Mutator) (clock : Clock) (fuel gen : Nat)
        (e e' : EvolutionEngine), genBody f m clock gen e = Except.ok e' →
        1 ≤ maxFit e' →
        runLoop f m clock (fuel + 1) gen e = Except.ok e'
          ∧ e'.currentGeneration = gen)
    ∧ ∀ (clock : Clock) (e : EvolutionEngine) (i : Nat), i ∈ e.population →
        1 ≤ fit e i → 0 < e.config.populationSize →
        1 ≤ maxFit (selectResult clock e) := by
  refine ⟨checkTermination_iff, ?_, ?_⟩
  · intro f m clock fuel gen e e' hgb hfit
    have hpop' : e'.population ≠ [] := by
      intro hc
      rw [maxFit_nil e' hc] at hfit
      norm_num at hfit
    have hterm : checkTermination e' = true :=
      (checkTermination_iff e').mpr (Or.inr (Or.inl hfit))
    constructor
    · rw [runLoop_succ, hgb]
      dsimp only
      rw [if_neg (by simp [hpop']), if_pos hterm]
    · exact (genBody_ok_out hgb).2.1
  · intro clock e i hi hfit hps
    exact selectResult_keeps_max clock e (by norm_num) hi hfit hps

/-- The C3 witness evaluator: every payload scores `2.0 ≥ 1.0`. -/
def evalC3 : Evaluator := fun _ _ => EvalOutcome.ok 2

/-- The configuration of the C3 witness: 5 configured generations. -/
def cfgC3 : EvolutionConfig :=
  { populationSize := 1, eliteRatio := 1, maxGenerations := 5 }

/-- The C3 witness engine. -/
def engineC3 : EvolutionEngine := initPopulation (mkEngine cfgC3) ["s"]

/-- The C3 witness state after the first generation body. -/
def c3gen0 : EvolutionEngine :=
  (genBody evalC3 none (fun _ => "t") 0 engineC3).toOption.getD engineC3

/-- A one-individual engine whose sole member already scores `2.0`. -/
def engineC3b : EvolutionEngine :=
  { config := { populationSize := 1 },
    store := [{ code := "x", fitness := 2, generation := 0, parentId := none }],
    population := [0], archive := [], state := EvolutionState.idle,
    currentGeneration := 0, evalLog := [], mutCalls := 0, clockTicks := 0 }

theorem c3_termination_witness :
    genBody evalC3 none (fun _ => "t") 0 engineC3 = Except.ok c3gen0
    ∧ 1 ≤ maxFit c3gen0
    ∧ (runLoop evalC3 none (fun _ => "t") 5 0 engineC3 = Except.ok c3gen0
        ∧ c3gen0.currentGeneration = 0)
    ∧ (0 ∈ engineC3b.population ∧ 1 ≤ fit engineC3b 0
        ∧ 0 < engineC3b.config.populationSize)
    ∧ 1 ≤ maxFit (selectResult (fun _ => "t") engineC3b) :=
  ⟨by decide, by decide,
    c3_termination.2.1 evalC3 none (fun _ => "t") 4 0 engineC3 c3gen0
      (by decide) (by decide),
    ⟨by decide, by decide, by decide⟩,
    c3_termination.2.2 (fun _ => "t") engineC3b 0 (by decide) (by decide)
      (by decide)⟩

end Evolution
